import Mathlib

/-!
Shallow embedding of `src/rorex/src/main.rs` (a Rust egui forex-rate
fetcher) and proofs about its observable behaviour.

Modelling conventions, fixed once for the whole file:

* `f64` rate values are only carried around, stored and compared for
  presence by the program (never arithmetically combined); they are
  modelled by `Rat`.  The literal `0.0` sentinel becomes `(0 : Rat)`.
* A `HashMap<String, V>` decoded from JSON is modelled as an association
  list `List (String × V)`; `HashMap::get` becomes `List.lookup` (JSON
  object keys are unique, so first-match lookup agrees with the map).
* `chrono::NaiveDate` is modelled by `Int` (a day number);
  `Utc::now().date_naive()` becomes an explicit `today : Int` parameter;
  `date + Duration::days(i)` is `date + i` and `NaiveDate`'s `Display`
  (an injective rendering of the date used only as a map key and inside
  URLs) is modelled by the injective `toString : Int → String`.
* The network plus JSON-decode layer (`client.get(url).send()` followed by
  `response.json()`) is modelled by an oracle function from the request to
  `Except String R`, where `Except.error msg` is a transport failure or a
  decode failure carrying the underlying message (both are
  `map_err(|e| e.to_string())` in the source) and `Except.ok` is a decoded
  response.  For `fetch_historical_rates`, which issues one GET per loop
  iteration, the oracle also receives the iteration index, because two
  physically distinct GETs to the same URL may behave differently.
* A Rust panic (out-of-bounds or non-boundary string byte-slicing) is
  modelled by `Option`: a function that can panic returns `none` exactly
  on the inputs where the Rust code panics.
-/

/-- UTF-8 byte length of a list of characters, as Rust's `str::len`. -/
def utf8Len (cs : List Char) : Nat :=
  (cs.map Char.utf8Size).sum

/-- Rust byte-slicing `(&s[..n], &s[n..])` on the UTF-8 encoding of `cs`:
`some (a, b)` splits `cs` into a prefix of exactly `n` UTF-8 bytes and the
rest; `none` models the panic when `n` is out of bounds or falls inside a
character. -/
def splitAtBytes : List Char → Nat → Option (List Char × List Char)
  | cs, 0 => some ([], cs)
  | [], _ + 1 => none
  | c :: cs, n + 1 =>
    if c.utf8Size ≤ n + 1 then
      (splitAtBytes cs (n + 1 - c.utf8Size)).map (fun p => (c :: p.1, p.2))
    else none

/-- The decoded body of the latest-rates endpoint
(struct `ForexResponse { conversion_rates: HashMap<String, f64> }`). -/
structure ForexResponse where
  conversion_rates : List (String × Rat)

/-- The decoded body of the history endpoint (struct
`HistoricalResponse { rates: HashMap<String, HashMap<String, f64>> }`). -/
structure HistoricalResponse where
  rates : List (String × List (String × Rat))

/-- `NaiveDate`'s `Display`, see the modelling conventions above. -/
def dateToString (d : Int) : String :=
  toString d

/-- The URL built by `fetch_forex_rate`:
`format!("https://v6.exchangerate-api.com/v6/{}/latest/{}", api_key, &pair[..3])`. -/
def rateUrl (api_key base : String) : String :=
  "https://v6.exchangerate-api.com/v6/" ++ api_key ++ "/latest/" ++ base

/-- `fetch_forex_rate(api_key, pair)` from `main.rs`.  The `http` oracle
models `client.get(url).send()` plus `response.json::<ForexResponse>()`.
Returns `none` when the Rust code panics (byte index 3 out of bounds or
not a character boundary in `pair`); otherwise `some` of the
`Result<f64, String>` the Rust function returns. -/
def fetch_forex_rate (api_key pair : String)
    (http : String → Except String ForexResponse) :
    Option (Except String Rat) :=
  match splitAtBytes pair.data 3 with
  | none => none
  | some (b, t) =>
    let url := rateUrl api_key (String.mk b)
    some (match http url with
      | .error e => .error e
      | .ok forex_response =>
        let target_currency := String.mk t
        match forex_response.conversion_rates.lookup target_currency with
        | some r => .ok r
        | none => .error "Currency pair not found")

/-- The URL built inside the loop of `fetch_historical_rates`:
`format!("https://v6.exchangerate-api.com/v6/{}/history/{}/{}?start_date={}&end_date={}",
api_key, base_currency, target_currency, start_date, end_date)`.
Note it is built from `start_date` and `end_date` only — the per-iteration
`date` never appears in it. -/
def historyUrl (api_key base_currency target_currency : String)
    (start_date end_date : Int) : String :=
  "https://v6.exchangerate-api.com/v6/" ++ api_key ++ "/history/"
    ++ base_currency ++ "/" ++ target_currency
    ++ "?start_date=" ++ dateToString start_date
    ++ "&end_date=" ++ dateToString end_date

/-- The two nested lookups of the loop body:
`historical_response.rates.get(&date.to_string())` then `.get(target_currency)`. -/
def lookupRate (historical_response : HistoricalResponse) (date : Int)
    (target_currency : String) : Option Rat :=
  match historical_response.rates.lookup (dateToString date) with
  | some m => m.lookup target_currency
  | none => none

/-- The `for date in (0..=30).map(|i| start_date + Duration::days(i))` loop of
`fetch_historical_rates`, over the list of remaining iteration indices.
`http i url` models the GET issued on iteration `i`; a transport or decode
failure propagates out via `?`, a failed lookup silently skips the date. -/
def historyLoop (api_key base_currency target_currency : String)
    (start_date end_date : Int)
    (http : Nat → String → Except String HistoricalResponse) :
    List Nat → List (Int × Rat) → Except String (List (Int × Rat))
  | [], rates => .ok rates
  | i :: rest, rates =>
    let date : Int := start_date + i
    let url := historyUrl api_key base_currency target_currency start_date end_date
    match http i url with
    | .error e => .error e
    | .ok historical_response =>
      match lookupRate historical_response date target_currency with
      | some rate =>
        historyLoop api_key base_currency target_currency start_date end_date http
          rest (rates ++ [(date, rate)])
      | none =>
        historyLoop api_key base_currency target_currency start_date end_date http
          rest rates

/-- `fetch_historical_rates(api_key, pair)` from `main.rs`, with the current
date and the network as explicit parameters.  Returns `none` when the Rust
code panics on the byte-slicing of `pair`; otherwise `some` of the
`Result<Vec<(NaiveDate, f64)>, String>` the Rust function returns. -/
def fetch_historical_rates (api_key pair : String) (today : Int)
    (http : Nat → String → Except String HistoricalResponse) :
    Option (Except String (List (Int × Rat))) :=
  match splitAtBytes pair.data 3 with
  | none => none
  | some (b, t) =>
    let base_currency := String.mk b
    let target_currency := String.mk t
    let end_date : Int := today
    let start_date : Int := end_date - 30
    some (historyLoop api_key base_currency target_currency start_date end_date http
      (List.range 31) [])

/-- The `currencies` vector built in `App::new` (the fixed set of supported
currency codes offered by the two pickers; the field `App.currencies` is initialized from it). -/
def currencyCodes : List String :=
  ["AED", "AFN", "ALL", "AMD", "ANG", "AOA", "ARS", "AUD", "AWG", "AZN", "BAM", "BBD", "BDT",
   "BGN", "BHD", "BIF", "BMD", "BND", "BOB", "BRL", "BSD", "BTN", "BWP", "BYN", "BZD", "CAD",
   "CHF", "CLP", "CNY", "COP", "CRC", "CUP", "CVE", "CZK", "DJF", "DKK", "DOP", "DZD", "EGP",
   "ERN", "ETB", "EUR", "FJD", "FKP", "FOK", "GBP", "GEL", "GGP", "GHS", "GIP", "GMD", "GNF",
   "GTQ", "GYD", "HKD", "HNL", "HRK", "HTG", "HUF", "IDR", "ILS", "IMP", "INR", "IQD", "IRR",
   "ISK", "JEP", "JMD", "JOD", "JPY", "KES", "KGS", "KHR", "KID", "KMF", "KPW", "KRW", "KWD",
   "KYD", "KZT", "LAK", "LBP", "LKR", "LRD", "LSL", "LYD", "MAD", "MDL", "MGA", "MKD", "MMK",
   "MNT", "MOP", "MRU", "MUR", "MVR", "MWK", "MXN", "MYR", "MZN", "NAD", "NGN", "NIO", "NOK",
   "NPR", "NZD", "OMR", "PAB", "PEN", "PGK", "PHP", "PKR", "PLN", "PYG", "QAR", "RON", "RSD",
   "RUB", "RWF", "SAR", "SBD", "SCR", "SDG", "SEK", "SGD", "SHP", "SLL", "SOS", "SRD", "SSP",
   "STN", "SYP", "SZL", "THB", "TJS", "TMT", "TND", "TOP", "TRY", "TTD", "TVD", "TWD", "TZS",
   "UAH", "UGX", "UYU", "UZS", "VES", "VND", "VUV", "WST", "XAF", "XCD", "XDR", "XOF", "XPF",
   "YER", "ZAR", "ZMW", "ZWL"]

/-- The application state (struct `App` in `main.rs`).  The channel endpoint
fields `fetch_rate_tx` / `fetch_rate_rx` are not data; the channel's contents
are modelled as an explicit FIFO queue `List (Option Rat)` passed alongside
the state (messages are `Option<f64>` in the source). -/
structure App where
  api_key : String
  base_currency : String
  target_currency : String
  rate : Option Rat
  currencies : List String
  trend : List Rat
  historical_rates : List (Int × Rat)

/-- `App::new()`. -/
def App.new : App where
  api_key := ""
  base_currency := "USD"
  target_currency := "EUR"
  rate := none
  currencies := currencyCodes
  trend := []
  historical_rates := []

/-- A task handed to `thread::spawn` by `App::update`, recorded with the
values it captures by move at spawn time (clones of the form fields, and for
the history button additionally a clone of `self.trend`). -/
inductive SpawnedTask where
  | rateTask (api_key pair : String)
  | historyTask (api_key pair : String) (trend : List Rat)

/-- Body of the thread spawned by the "Fetch Rate" button:
`let rate = fetch_forex_rate(&api_key, &pair).ok(); tx.send(rate).ok();`.
Returns the message sent on the channel, or `none` if the body panics
(in which case no message is ever sent). -/
def runRateTask (api_key pair : String)
    (http : String → Except String ForexResponse) : Option (Option Rat) :=
  (fetch_forex_rate api_key pair http).map Except.toOption

/-- Body of the thread spawned by the "Fetch Historical Rates" button: it
pushes the fetched rates onto its captured clone `trend` of `self.trend`,
then sends `Some(0.0)` ("Dummy send to trigger update").  Returns
`(final local trend, message sent)`, or `none` if the body panics. -/
def runHistoryTask (api_key pair : String) (trend : List Rat) (today : Int)
    (http : Nat → String → Except String HistoricalResponse) :
    Option (List Rat × Option Rat) :=
  match fetch_historical_rates api_key pair today http with
  | none => none
  | some res =>
    let trend' := match res.toOption with
      | some rates => trend ++ rates.map Prod.snd
      | none => trend
    some (trend', some 0)

/-- Effect on the application state of one drained message `m`: the
`if let Some(rate) = rate { self.rate = Some(rate); }` arm of the
`try_recv` match. -/
def applyMsg (app : App) (m : Option Rat) : App :=
  match m with
  | some rate => { app with rate := some rate }
  | none => app

/-- The `match self.fetch_rate_rx.try_recv()` step of `App::update`: one
non-blocking receive per frame.  On an empty queue `try_recv` returns an
error and the state is untouched; otherwise the head message is consumed
and applied. -/
def drainOnce (app : App) (queue : List (Option Rat)) : App × List (Option Rat) :=
  match queue with
  | [] => (app, [])
  | m :: rest => (applyMsg app m, rest)

/-- One frame of `App::update`, restricted to its state-observable effects:
the two button handlers (each spawns one task capturing clones of the form
fields, and for history a clone of `self.trend`) followed by the single
`try_recv` drain.  Widget rendering and the synchronous text/combo edits of
`api_key` / `base_currency` / `target_currency` are orthogonal to the
claims and not modelled.  Returns the new state, the remaining queue and
the list of tasks spawned this frame. -/
def App.updateFrame (app : App) (clickRate clickHistory : Bool)
    (queue : List (Option Rat)) :
    App × List (Option Rat) × List SpawnedTask :=
  let pair := app.base_currency ++ app.target_currency
  let spawns :=
    (if clickRate then [SpawnedTask.rateTask app.api_key pair] else [])
      ++ (if clickHistory then [SpawnedTask.historyTask app.api_key pair app.trend] else [])
  let drained := drainOnce app queue
  (drained.1, drained.2, spawns)

/-- A string of exactly three one-byte (ASCII) characters; such a string
occupies exactly 3 UTF-8 bytes, so Rust's `&pair[..3]` / `&pair[3..]` split a
concatenation of it with anything at its end. -/
def isThreeByteCode (s : String) : Bool :=
  match s.data with
  | [c1, c2, c3] => c1.utf8Size == 1 && c2.utf8Size == 1 && c3.utf8Size == 1
  | _ => false

/-- Declarative description, following the spec, of the samples
`fetch_historical_rates` returns when every per-day request succeeds: one
`(date, rate)` pair for each iteration index `i ∈ [0, 30]` whose date key and
target code both resolve in that iteration's response, ascending by
construction.  To be compared with the imperative loop. -/
def historySamplesSpec (resp : Nat → HistoricalResponse) (start_date : Int)
    (target_currency : String) : List (Int × Rat) :=
  (List.range 31).filterMap (fun i =>
    (lookupRate (resp i) (start_date + i) target_currency).map
      (fun r => (start_date + i, r)))

/-- A concrete mock 31-day response family: on iteration indices with
`i % 7 = 2` (five of the 31) the response is missing the date key; on the
others it carries the date with an "EUR" rate of 1. -/
def mockHistResp (i : Nat) : HistoricalResponse :=
  if i % 7 = 2 then ⟨[]⟩ else ⟨[(dateToString i, [("EUR", (1 : Rat))])]⟩

theorem splitAtBytes_append (a b : List Char) :
    splitAtBytes (a ++ b) (utf8Len a) = some (a, b) := by
  induction a with
  | nil => simp [splitAtBytes, utf8Len]
  | cons c a ih =>
    have hpos := Char.utf8Size_pos c
    have hlen : utf8Len (c :: a) = c.utf8Size + utf8Len a := by
      simp [utf8Len]
    cases hn : utf8Len (c :: a) with
    | zero => omega
    | succ n =>
      have hle : c.utf8Size ≤ n + 1 := by omega
      have hsub : n + 1 - c.utf8Size = utf8Len a := by omega
      simp [splitAtBytes, hle, hsub, ih]

theorem splitAtBytes_eq_some {cs a b : List Char} {n : Nat}
    (h : splitAtBytes cs n = some (a, b)) : cs = a ++ b ∧ utf8Len a = n := by
  induction cs generalizing n a b with
  | nil =>
    cases n with
    | zero =>
      simp [splitAtBytes] at h
      simp [h.1, h.2, utf8Len]
    | succ n => simp [splitAtBytes] at h
  | cons c cs ih =>
    cases n with
    | zero =>
      simp [splitAtBytes] at h
      simp [h.1, h.2, utf8Len]
    | succ n =>
      by_cases hle : c.utf8Size ≤ n + 1
      · simp only [splitAtBytes, if_pos hle, Option.map_eq_some'] at h
        obtain ⟨⟨a', b'⟩, hrec, heq⟩ := h
        obtain ⟨ha, hb⟩ := Prod.mk.injEq .. ▸ heq
        obtain ⟨hcs, hlen⟩ := ih hrec
        subst ha hb
        constructor
        · simp [hcs]
        · simp [utf8Len] at hlen ⊢
          omega
      · simp [splitAtBytes, hle] at h

theorem utf8Len_append (a b : List Char) :
    utf8Len (a ++ b) = utf8Len a + utf8Len b := by
  simp [utf8Len]

theorem isThreeByteCode_utf8Len (s : String) (h : isThreeByteCode s = true) :
    utf8Len s.data = 3 := by
  rcases hs : s.data with _ | ⟨c1, _ | ⟨c2, _ | ⟨c3, _ | ⟨c4, rest⟩⟩⟩⟩ <;>
    simp [isThreeByteCode, hs] at h
  obtain ⟨⟨h1, h2⟩, h3⟩ := h
  simp [utf8Len, h1, h2, h3]

theorem splitAtBytes_code (s t : String) (h : isThreeByteCode s = true) :
    splitAtBytes (s ++ t).data 3 = some (s.data, t.data) := by
  have h3 := isThreeByteCode_utf8Len s h
  have happ := splitAtBytes_append s.data t.data
  rw [h3] at happ
  rw [String.data_append, happ]

theorem currencyCodes_threeByte : currencyCodes.all isThreeByteCode = true := by
  decide

theorem historyLoop_ok (api_key b t : String) (s e : Int)
    (http : Nat → String → Except String HistoricalResponse)
    (resp : Nat → HistoricalResponse) (is : List Nat) (acc : List (Int × Rat))
    (h : ∀ i ∈ is, http i (historyUrl api_key b t s e) = .ok (resp i)) :
    historyLoop api_key b t s e http is acc =
      .ok (acc ++ is.filterMap (fun i =>
        (lookupRate (resp i) (s + i) t).map (fun r => (s + i, r)))) := by
  induction is generalizing acc with
  | nil => simp [historyLoop]
  | cons i rest ih =>
    have hi := h i (by simp)
    have hrest : ∀ j ∈ rest, http j (historyUrl api_key b t s e) = .ok (resp j) :=
      fun j hj => h j (by simp [hj])
    simp only [historyLoop, hi]
    cases hl : lookupRate (resp i) (s + i) t with
    | none => simp [List.filterMap_cons, hl, ih _ hrest]
    | some r => simp [List.filterMap_cons, hl, ih _ hrest]

theorem historyLoop_error (api_key b t : String) (s e : Int)
    (http : Nat → String → Except String HistoricalResponse)
    (pre suf : List Nat) (j : Nat) (msg : String) (acc : List (Int × Rat))
    (hpre : ∀ i ∈ pre, ∃ r, http i (historyUrl api_key b t s e) = .ok r)
    (hj : http j (historyUrl api_key b t s e) = .error msg) :
    historyLoop api_key b t s e http (pre ++ j :: suf) acc = .error msg := by
  induction pre generalizing acc with
  | nil => simp [historyLoop, hj]
  | cons i pre ih =>
    obtain ⟨r, hr⟩ := hpre i (by simp)
    simp only [List.cons_append, historyLoop, hr]
    cases hl : lookupRate r (s + i) t with
    | none => exact ih acc (fun x hx => hpre x (by simp [hx]))
    | some v => exact ih (acc ++ [(s + (i : Int), v)]) (fun x hx => hpre x (by simp [hx]))

theorem historyLoop_congr (api_key b t : String) (s e : Int)
    (http http' : Nat → String → Except String HistoricalResponse)
    (is : List Nat) (acc : List (Int × Rat))
    (h : ∀ i ∈ is, http i (historyUrl api_key b t s e)
      = http' i (historyUrl api_key b t s e)) :
    historyLoop api_key b t s e http is acc
      = historyLoop api_key b t s e http' is acc := by
  induction is generalizing acc with
  | nil => rfl
  | cons i rest ih =>
    have hrest : ∀ x ∈ rest, http x (historyUrl api_key b t s e)
        = http' x (historyUrl api_key b t s e) :=
      fun x hx => h x (by simp [hx])
    have hrw : ∀ acc, historyLoop api_key b t s e http rest acc
        = historyLoop api_key b t s e http' rest acc :=
      fun acc => ih acc hrest
    simp only [historyLoop, h i (by simp), hrw]

theorem range31_split {j : Nat} (hj : j < 31) :
    ∃ suf, List.range 31 = List.range j ++ j :: suf := by
  refine ⟨(List.range (30 - j)).map (fun x => j + 1 + x), ?_⟩
  rw [show (31 : Nat) = (j + 1) + (30 - j) by omega, List.range_add, List.range_succ]
  simp [List.append_assoc]

/-- C1: for every supported currency pair (base and target codes both drawn
from the picker's fixed `currencies` list) and every well-formed response
whose `conversion_rates` map contains the target code, `fetch_forex_rate`
returns exactly the value stored under the target code in that map. -/
theorem fetch_forex_rate_returns_map_value
    (api_key base target : String) (http : String → Except String ForexResponse)
    (resp : ForexResponse) (r : Rat)
    (hbase : base ∈ currencyCodes) (htarget : target ∈ currencyCodes)
    (hhttp : http (rateUrl api_key base) = .ok resp)
    (hlookup : resp.conversion_rates.lookup target = some r) :
    fetch_forex_rate api_key (base ++ target) http = some (.ok r) := by
  have hb : isThreeByteCode base = true :=
    List.all_eq_true.mp currencyCodes_threeByte base hbase
  have ht : isThreeByteCode target = true :=
    List.all_eq_true.mp currencyCodes_threeByte target htarget
  have hsplit := splitAtBytes_code base target hb
  have hmkb : String.mk base.data = base := by cases base; rfl
  have hmkt : String.mk target.data = target := by cases target; rfl
  simp only [fetch_forex_rate, hsplit, hmkb, hmkt, hhttp, hlookup]

/-- Witness for C1 at a concrete input: pair EUR/GBP against a mock response
carrying `{"conversion_rates": {"GBP": 0.85}}`. -/
theorem fetch_forex_rate_returns_map_value_witness :
    fetch_forex_rate "testkey" ("EUR" ++ "GBP")
      (fun _ => .ok ⟨[("GBP", (85 : Rat) / 100)]⟩) = some (.ok ((85 : Rat) / 100)) :=
  fetch_forex_rate_returns_map_value "testkey" "EUR" "GBP"
    (fun _ => .ok ⟨[("GBP", (85 : Rat) / 100)]⟩) ⟨[("GBP", (85 : Rat) / 100)]⟩
    ((85 : Rat) / 100) (by decide) (by decide) rfl rfl

/-- C4: on a pair whose byte-slicing succeeds, `fetch_forex_rate` has exactly
three outcomes, determined by the HTTP/decode layer: a transport or decode
failure yields an error carrying the underlying message; a decoded response
lacking the target code yields the `PairNotFound` error
("Currency pair not found"); a decoded response containing the target code
yields its rate.  The three premises are exhaustive and mutually exclusive,
so these are the only behaviours. -/
theorem fetch_forex_rate_failure_modes
    (api_key pair : String) (b t : List Char)
    (http : String → Except String ForexResponse)
    (hsplit : splitAtBytes pair.data 3 = some (b, t)) :
    (∀ e, http (rateUrl api_key (String.mk b)) = .error e →
      fetch_forex_rate api_key pair http = some (.error e)) ∧
    (∀ resp, http (rateUrl api_key (String.mk b)) = .ok resp →
      resp.conversion_rates.lookup (String.mk t) = none →
      fetch_forex_rate api_key pair http = some (.error "Currency pair not found")) ∧
    (∀ resp r, http (rateUrl api_key (String.mk b)) = .ok resp →
      resp.conversion_rates.lookup (String.mk t) = some r →
      fetch_forex_rate api_key pair http = some (.ok r)) := by
  refine ⟨fun e he => ?_, fun resp hr hn => ?_, fun resp r hr hs => ?_⟩
  · simp only [fetch_forex_rate, hsplit, he]
  · simp only [fetch_forex_rate, hsplit, hr, hn]
  · simp only [fetch_forex_rate, hsplit, hr, hs]

/-- Witness for C4 at concrete inputs: a transport failure is passed through,
a response missing the target yields the pair-not-found message. -/
theorem fetch_forex_rate_failure_modes_witness :
    fetch_forex_rate "k" "USDEUR" (fun _ => .error "connection refused")
      = some (.error "connection refused") ∧
    fetch_forex_rate "k" "USDEUR" (fun _ => .ok ⟨[("JPY", (157 : Rat))]⟩)
      = some (.error "Currency pair not found") :=
  ⟨(fetch_forex_rate_failure_modes "k" "USDEUR" "USD".data "EUR".data
      (fun _ => .error "connection refused") rfl).1 "connection refused" rfl,
   (fetch_forex_rate_failure_modes "k" "USDEUR" "USD".data "EUR".data
      (fun _ => .ok ⟨[("JPY", (157 : Rat))]⟩) rfl).2.1 ⟨[("JPY", (157 : Rat))]⟩
      rfl (by decide)⟩

/-- C10: `fetch_forex_rate` is partial in its pair argument: it panics
(modelled by `none`) whenever `pair` is shorter than 3 UTF-8 bytes, and it
returns a value exactly when `pair` splits as a prefix of exactly 3 UTF-8
bytes followed by a remainder, i.e. byte index 3 is in bounds and on a
character boundary. -/
theorem fetch_forex_rate_partial_in_pair
    (api_key pair : String) (http : String → Except String ForexResponse) :
    (utf8Len pair.data < 3 → fetch_forex_rate api_key pair http = none) ∧
    ((fetch_forex_rate api_key pair http).isSome ↔
      ∃ a b, pair.data = a ++ b ∧ utf8Len a = 3) := by
  have hiff : (fetch_forex_rate api_key pair http).isSome ↔
      ∃ a b, pair.data = a ++ b ∧ utf8Len a = 3 := by
    constructor
    · intro hs
      cases hsp : splitAtBytes pair.data 3 with
      | none =>
        simp only [fetch_forex_rate, hsp, Option.isSome_none] at hs
        exact Bool.noConfusion hs
      | some p =>
        obtain ⟨hab, hlen⟩ := splitAtBytes_eq_some hsp
        exact ⟨p.1, p.2, hab, hlen⟩
    · rintro ⟨a, b, hab, hlen⟩
      have hsp : splitAtBytes pair.data 3 = some (a, b) := by
        rw [hab, ← hlen]
        exact splitAtBytes_append a b
      simp only [fetch_forex_rate, hsp, Option.isSome_some]
  refine ⟨?_, hiff⟩
  intro hlt
  cases hfe : fetch_forex_rate api_key pair http with
  | none => rfl
  | some r =>
    obtain ⟨a, b, hab, hlen⟩ := hiff.mp (by simp [hfe])
    have : utf8Len pair.data = utf8Len a + utf8Len b := by
      rw [hab, utf8Len_append]
    omega

/-- Witness for C10 at concrete inputs: the 2-byte pair "US" panics (no
result at all), while the 6-byte pair "USDEUR" does produce a result. -/
theorem fetch_forex_rate_partial_in_pair_witness :
    fetch_forex_rate "k" "US" (fun _ => .error "unused") = none ∧
    (fetch_forex_rate "k" "USDEUR" (fun _ => .error "unused")).isSome :=
  ⟨(fetch_forex_rate_partial_in_pair "k" "US" (fun _ => .error "unused")).1 (by decide),
   (fetch_forex_rate_partial_in_pair "k" "USDEUR" (fun _ => .error "unused")).2.mpr
     ⟨"USD".data, "EUR".data, by decide, by decide⟩⟩

/-- C2: when every per-day request of the 31-day window succeeds,
`fetch_historical_rates` returns exactly the declarative sample list: one
`(date, rate)` pair per iteration index whose date key and target code both
resolve in that iteration's response (dates failing either lookup are
silently skipped, with no error or partial-failure signal), with the correct
rate, and the dates are strictly ascending. -/
theorem fetch_historical_rates_all_ok_spec
    (api_key pair : String) (b t : List Char) (today : Int)
    (http : Nat → String → Except String HistoricalResponse)
    (resp : Nat → HistoricalResponse)
    (hsplit : splitAtBytes pair.data 3 = some (b, t))
    (hok : ∀ i, i < 31 →
      http i (historyUrl api_key (String.mk b) (String.mk t) (today - 30) today)
        = .ok (resp i)) :
    fetch_historical_rates api_key pair today http
      = some (.ok (historySamplesSpec resp (today - 30) (String.mk t))) ∧
    List.Pairwise (fun p q => p.1 < q.1)
      (historySamplesSpec resp (today - 30) (String.mk t)) := by
  constructor
  · simp only [fetch_historical_rates, hsplit]
    rw [historyLoop_ok api_key (String.mk b) (String.mk t) (today - 30) today http resp
      (List.range 31) [] (fun i hi => hok i (List.mem_range.mp hi))]
    simp [historySamplesSpec]
  · rw [historySamplesSpec, List.pairwise_filterMap]
    refine (List.pairwise_lt_range 31).imp ?_
    intro i j hij p hp q hq
    simp only [Option.mem_def, Option.map_eq_some'] at hp hq
    obtain ⟨r1, _, hp1⟩ := hp
    obtain ⟨r2, _, hq1⟩ := hq
    rw [← hp1, ← hq1]
    simp only
    omega

/-- Witness for C2 at a concrete input: a mocked 31-day window in which 5
days are missing from the responses yields exactly 26 samples. -/
theorem fetch_historical_rates_all_ok_spec_witness :
    fetch_historical_rates "key" "USDEUR" 30 (fun i _ => .ok (mockHistResp i))
      = some (.ok (historySamplesSpec mockHistResp 0 "EUR")) ∧
    (historySamplesSpec mockHistResp 0 "EUR").length = 26 := by
  refine ⟨?_, by decide⟩
  exact (fetch_historical_rates_all_ok_spec "key" "USDEUR" "USD".data "EUR".data 30
    (fun i _ => .ok (mockHistResp i)) mockHistResp rfl (fun i _ => rfl)).1

/-- C3: a transport or top-level decode failure on any single iteration of
the 31-day loop aborts the whole `fetch_historical_rates` call with that
iteration's error (the error of the `NetworkOrDecodeError` kind, carrying
the underlying message): when the first `j` requests succeed and request `j`
fails, the result is that error and no samples at all — everything
accumulated on the earlier iterations is discarded. -/
theorem fetch_historical_rates_abort_on_failure
    (api_key pair : String) (b t : List Char) (today : Int)
    (http : Nat → String → Except String HistoricalResponse)
    (j : Nat) (e : String)
    (hsplit : splitAtBytes pair.data 3 = some (b, t))
    (hj : j < 31)
    (hbefore : ∀ i, i < j → ∃ r,
      http i (historyUrl api_key (String.mk b) (String.mk t) (today - 30) today)
        = .ok r)
    (hfail : http j (historyUrl api_key (String.mk b) (String.mk t) (today - 30) today)
      = .error e) :
    fetch_historical_rates api_key pair today http = some (.error e) := by
  obtain ⟨suf, hr⟩ := range31_split hj
  simp only [fetch_historical_rates, hsplit]
  rw [hr, historyLoop_error api_key (String.mk b) (String.mk t) (today - 30) today http
    (List.range j) suf j e [] (fun i hi => hbefore i (List.mem_range.mp hi)) hfail]

/-- Witness for C3 at a concrete input: the request of iteration 15 (of 31)
fails while the 15 before it succeed, and the whole call returns that
transport error — zero samples, not 15. -/
theorem fetch_historical_rates_abort_on_failure_witness :
    fetch_historical_rates "key" "USDEUR" 30
      (fun i _ => if i < 15 then .ok ⟨[(dateToString i, [("EUR", (1 : Rat))])]⟩
        else .error "net down")
      = some (.error "net down") := by
  refine fetch_historical_rates_abort_on_failure "key" "USDEUR" "USD".data "EUR".data 30
    (fun i _ => if i < 15 then .ok ⟨[(dateToString i, [("EUR", (1 : Rat))])]⟩
      else .error "net down")
    15 "net down" rfl (by decide) (fun i hi => ?_) (by simp)
  exact ⟨⟨[(dateToString i, [("EUR", (1 : Rat))])]⟩, by simp [hi]⟩

/-- C8: every iteration of the 31-day loop sends the same full-range URL,
built from `start_date = today - 30` and `end_date = today` only; the
per-iteration date is not part of any request.  Formally, the outcome of
`fetch_historical_rates` depends on the network oracle only through its
values at that one fixed URL: any two oracles that agree there (at every
iteration index) yield identical results. -/
theorem history_request_url_fixed
    (api_key pair : String) (b t : List Char) (today : Int)
    (http http' : Nat → String → Except String HistoricalResponse)
    (hsplit : splitAtBytes pair.data 3 = some (b, t))
    (hagree : ∀ i, i < 31 →
      http i (historyUrl api_key (String.mk b) (String.mk t) (today - 30) today)
        = http' i (historyUrl api_key (String.mk b) (String.mk t) (today - 30) today)) :
    fetch_historical_rates api_key pair today http
      = fetch_historical_rates api_key pair today http' := by
  simp only [fetch_historical_rates, hsplit]
  exact congrArg some (historyLoop_congr api_key (String.mk b) (String.mk t)
    (today - 30) today http http' (List.range 31) []
    (fun i hi => hagree i (List.mem_range.mp hi)))

/-- Witness for C8 at a concrete input: an oracle that would answer
differently on any URL other than the fixed full-range one produces exactly
the same result as the everywhere-constant oracle. -/
theorem history_request_url_fixed_witness :
    fetch_historical_rates "key" "USDEUR" 30 (fun _ _ => .ok ⟨[]⟩)
      = fetch_historical_rates "key" "USDEUR" 30
        (fun _ u => if u = "https://unrelated.example" then .error "wrong endpoint"
          else .ok ⟨[]⟩) := by
  refine history_request_url_fixed "key" "USDEUR" "USD".data "EUR".data 30
    (fun _ _ => .ok ⟨[]⟩)
    (fun _ u => if u = "https://unrelated.example" then .error "wrong endpoint"
      else .ok ⟨[]⟩)
    rfl (fun i _ => ?_)
  exact (if_neg (by decide)).symm

/-- C5: the history-fetch path never updates the authoritative
`App.trend`: a frame in which the history button is clicked (and which
performs its drain) leaves `trend` unchanged, and the spawned task only
accumulates into its captured local copy and then sends the fixed sentinel
`Some(0.0)` — a message carrying no trend data — so the locally mutated
copy is discarded when the task exits. -/
theorem history_click_never_updates_trend
    (app : App) (clickRate clickHistory : Bool) (queue : List (Option Rat))
    (api_key pair : String) (trend : List Rat) (today : Int)
    (http : Nat → String → Except String HistoricalResponse)
    (out : List Rat × Option Rat) :
    ((App.updateFrame app clickRate clickHistory queue).1).trend = app.trend ∧
    (runHistoryTask api_key pair trend today http = some out → out.2 = some 0) := by
  constructor
  · rcases queue with _ | ⟨m, rest⟩
    · rfl
    · rcases m with _ | r <;> rfl
  · intro h
    unfold runHistoryTask at h
    cases hfe : fetch_historical_rates api_key pair today http with
    | none => rw [hfe] at h; exact Option.noConfusion h
    | some res =>
      rw [hfe] at h
      simp only [Option.some.injEq] at h
      rw [← h]

/-- Witness for C5 at a concrete input: a history click on the fresh state
leaves `trend` empty, and a concrete completed history task (over a mock
network with empty responses) returns its discarded local trend together
with the sentinel message `some 0`. -/
theorem history_click_never_updates_trend_witness :
    ((App.updateFrame App.new false true []).1).trend = App.new.trend ∧
    (([], some (0 : Rat)) : List Rat × Option Rat).2 = some 0 :=
  ⟨(history_click_never_updates_trend App.new false true [] "key" "USDEUR" [] 30
      (fun _ _ => .ok ⟨[]⟩) ([], some 0)).1,
   (history_click_never_updates_trend App.new false true [] "key" "USDEUR" [] 30
      (fun _ _ => .ok ⟨[]⟩) ([], some 0)).2 rfl⟩

/-- C6: at the drain step, a message carrying a value overwrites the last
Point Rate, while a "none" message leaves the prior Point Rate unchanged —
a failed fetch never clears a previously displayed rate. -/
theorem drain_value_overwrites_none_preserves
    (app : App) (r : Rat) (rest : List (Option Rat)) :
    ((drainOnce app (some r :: rest)).1).rate = some r ∧
    ((drainOnce app (none :: rest)).1).rate = app.rate :=
  ⟨rfl, rfl⟩

/-- C7: the drain step of a frame performs one non-blocking receive and
consumes at most one message — the remaining queue is always the tail of
the incoming queue, excess messages stay queued — and two queued messages
are applied by two successive drains, one per frame, never both in one. -/
theorem drain_consumes_at_most_one
    (app : App) (clickRate clickHistory : Bool) (queue : List (Option Rat))
    (m1 m2 : Option Rat) (rest : List (Option Rat)) :
    (App.updateFrame app clickRate clickHistory queue).2.1 = queue.tail ∧
    drainOnce app (m1 :: m2 :: rest) = (applyMsg app m1, m2 :: rest) ∧
    drainOnce (applyMsg app m1) (m2 :: rest)
      = (applyMsg (applyMsg app m1) m2, rest) := by
  refine ⟨?_, rfl, rfl⟩
  cases queue <;> rfl

/-- C9: a history-fetch task that runs to completion (successfully or not)
sends the message `Some(0.0)` on the shared rate channel, and draining that
message overwrites the displayed Point Rate with 0 — clobbering any
previously fetched real rate. -/
theorem history_task_sends_zero_sentinel
    (api_key pair : String) (trend : List Rat) (today : Int)
    (http : Nat → String → Except String HistoricalResponse)
    (out : List Rat × Option Rat) (app : App) (rest : List (Option Rat)) :
    (runHistoryTask api_key pair trend today http = some out → out.2 = some 0) ∧
    ((drainOnce app (some 0 :: rest)).1).rate = some 0 := by
  constructor
  · intro h
    unfold runHistoryTask at h
    cases hfe : fetch_historical_rates api_key pair today http with
    | none => rw [hfe] at h; exact Option.noConfusion h
    | some res =>
      rw [hfe] at h
      simp only [Option.some.injEq] at h
      rw [← h]
  · rfl

/-- Witness for C9 at a concrete input: a history task over a mock network
that errors on every request still completes and sends `some 0`, and
draining `some 0` over a state displaying rate 0.92 leaves the rate at 0. -/
theorem history_task_sends_zero_sentinel_witness :
    (([7, 8], some (0 : Rat)) : List Rat × Option Rat).2 = some 0 ∧
    ((drainOnce { App.new with rate := some ((92 : Rat) / 100) }
      [some 0]).1).rate = some 0 :=
  ⟨(history_task_sends_zero_sentinel "key" "USDEUR" [7, 8] 30
      (fun _ _ => .error "net down") ([7, 8], some 0)
      { App.new with rate := some ((92 : Rat) / 100) } []).1 rfl,
   (history_task_sends_zero_sentinel "key" "USDEUR" [7, 8] 30
      (fun _ _ => .error "net down") ([7, 8], some 0)
      { App.new with rate := some ((92 : Rat) / 100) } []).2⟩
